import Mathlib

/-!
Verification of the CodeMorph migration system core
(`src/core/DataMigrator.ts`, `src/core/SchemaEvolution.ts`,
`src/core/ZeroDowntimeManager.ts`, `src/core/MigrationEngine.ts`,
`src/core/DatabaseAdapter.ts`) as a shallow embedding in Lean 4.

Modelling conventions, stated once here:
* JavaScript runtime values appearing in migrated rows are modelled by
  `JSValue`.  Numbers are modelled by `Int` (no claim exercises
  fractional or overflow behaviour); `Date` objects are modelled by their
  millisecond timestamp; plain objects are opaque (`vobj`), since no claim
  inspects object contents.
* A database row is an association list from column name to value; a
  missing key reads as JavaScript `undefined`.
* `Date.now()` and `new Date()` are modelled by explicit clock parameters
  (`now : Int`) threaded to the functions that read the clock.
* Adapter calls are modelled by their effect on pure state: a table store
  is an association list from table name to row list, `selectData` with
  limit/offset is `List.drop`/`List.take`, `insertData` appends, and a SQL
  transaction is all-or-nothing (on error the pre-transaction state is
  kept, mirroring `beginTransaction`/`commit`/`rollback`).
-/

namespace CodeMorph

/-- Model of a JavaScript value stored in a database row. -/
inductive JSValue where
  | vnull
  | vundefined
  | vstr (s : String)
  | vnum (n : Int)
  | vbool (b : Bool)
  | vdate (ms : Int)
  | vobj
deriving DecidableEq, Repr

/-- A row, as the adapters hand it to `DataMigrator`: column name to value. -/
abbrev JSRow := List (String × JSValue)

/-- `row[column]` in JavaScript: a missing key reads as `undefined`. -/
def jsGet (r : JSRow) (k : String) : JSValue :=
  (r.lookup k).getD .vundefined

/-- `String(value)`.  The textual form of a `Date` is modelled as
`Date(<ms>)`: like the real human-readable form it is never a valid UUID,
which is the only property the code relies on. -/
def jsToString : JSValue → String
  | .vnull => "null"
  | .vundefined => "undefined"
  | .vstr s => s
  | .vnum n => toString n
  | .vbool b => if b then "true" else "false"
  | .vdate ms => "Date(" ++ toString ms ++ ")"
  | .vobj => "[object Object]"

/-- `Number(value)`; `none` models `NaN`.  String coercion is modelled for
integer literals and the blank string (which coerces to 0); fractional,
hexadecimal and exponent literals are outside the claims' inputs. -/
def jsToNumber : JSValue → Option Int
  | .vnull => some 0
  | .vundefined => none
  | .vstr s => if s.trim = "" then some 0 else s.trim.toInt?
  | .vnum n => some n
  | .vbool b => some (if b then 1 else 0)
  | .vdate ms => some ms
  | .vobj => none

/-- `new Date(value)` for a non-`Date` argument; `none` models an invalid
date.  Date-string parsing is not modelled: a string argument is treated
as unparsable, which is faithful for every string the claims feed it. -/
def jsToDate : JSValue → Option Int
  | .vnull => some 0
  | .vundefined => none
  | .vstr _ => none
  | .vnum n => some n
  | .vbool b => some (if b then 1 else 0)
  | .vdate ms => some ms
  | .vobj => none

/-- `JSON.parse` on the stringified value, modelled for primitive JSON
literals; object/array sources and malformed strings both land on an
opaque object, matching the code's parse-result-or-`{}` behaviour for
claims that never inspect json cells. -/
def jsonParseValue (s : String) : JSValue :=
  if s = "true" then .vbool true
  else if s = "false" then .vbool false
  else if s = "null" then .vnull
  else match s.toInt? with
    | some n => .vnum n
    | none => .vobj

/-- JavaScript `toLowerCase()` on the ASCII strings the code feeds it
(type names, boolean literals).  Stated over the character list so that
it computes inside the kernel. -/
def jsLower (s : String) : String := String.mk (s.data.map Char.toLower)

/-- One character of the UUID pattern's `[0-9a-f]` class (the regex is
case-insensitive). -/
def isHexChar (c : Char) : Bool :=
  c.isDigit || (('a' ≤ c.toLower) && (c.toLower ≤ 'f'))

/-- The uuid regex of `transformValue`:
`^[0-9a-f]{8}-[0-9a-f]{4}-[1-5][0-9a-f]{3}-[89ab][0-9a-f]{3}-[0-9a-f]{12}$`,
case-insensitive. -/
def isUuidString (s : String) : Bool :=
  let cs := s.data
  cs.length == 36 &&
  (List.range 36).all (fun i =>
    let c := cs.getD i ' '
    if i == 8 || i == 13 || i == 18 || i == 23 then c == '-'
    else if i == 14 then ('1' ≤ c) && (c ≤ '5')
    else if i == 19 then
      let lc := c.toLower
      lc == '8' || lc == '9' || lc == 'a' || lc == 'b'
    else isHexChar c)

/-- `DataMigrator.transformValue`.  `now` models the `new Date()` taken
when a date fails to parse. -/
def transformValue (value : JSValue) (targetType : String) (now : Int) : JSValue :=
  if value = .vnull || value = .vundefined then value
  else match jsLower targetType with
    | "string" | "varchar" | "text" => .vstr (jsToString value)
    | "integer" | "int" | "bigint" =>
      match jsToNumber value with
      | none => .vnum 0
      | some n => .vnum n
    | "decimal" | "float" | "double" =>
      match jsToNumber value with
      | none => .vnum 0
      | some n => .vnum n
    | "boolean" | "bool" =>
      match value with
      | .vbool b => .vbool b
      | .vstr s => .vbool ((jsLower s = "true") || (s = "1"))
      | .vnum n => .vbool (n ≠ 0)
      | _ => .vbool true
    | "date" | "datetime" | "timestamp" =>
      match value with
      | .vdate ms => .vdate ms
      | _ =>
        match jsToDate value with
        | some ms => .vdate ms
        | none => .vdate now
    | "json" | "jsonb" =>
      match value with
      | .vobj => .vobj
      | .vdate ms => .vdate ms
      | _ => jsonParseValue (jsToString value)
    | "uuid" =>
      let strValue := jsToString value
      if isUuidString strValue then .vstr strValue else .vnull
    | _ => value

/-- Schema column (`ColumnDefinition` in `src/types`): the default value is
compared only for (in)equality by the code, so it is modelled as an
optional string. -/
structure ColumnDefinition where
  name : String
  type : String
  nullable : Bool
  defaultValue : Option String := none
deriving DecidableEq, Repr

/-- Schema table (`TableDefinition` in `src/types`). -/
structure TableDefinition where
  name : String
  columns : List ColumnDefinition
  primaryKey : Option String := none
deriving DecidableEq, Repr

/-- One column's slot of a transformed row (`transformData` loop body):
`null`/`undefined` cells skip `transformValue`. -/
def transformCell (now : Int) (row : JSRow) (column : ColumnDefinition) :
    String × JSValue :=
  (column.name,
    if jsGet row column.name = .vnull || jsGet row column.name = .vundefined then
      jsGet row column.name
    else transformValue (jsGet row column.name) column.type now)

/-- The body of `DataMigrator.transformData` for one row: the transformed
row has one entry per schema column. -/
def transformRow (table : TableDefinition) (now : Int) (row : JSRow) : JSRow :=
  table.columns.map (transformCell now row)

/-- `DataMigrator.transformData`. -/
def transformData (data : List JSRow) (table : TableDefinition) (now : Int) : List JSRow :=
  data.map (transformRow table now)

theorem transformData_length (data : List JSRow) (table : TableDefinition) (now : Int) :
    (transformData data table now).length = data.length := by
  simp [transformData]

/-- The batch loop of `DataMigrator.migrateTableData`.  `selectData(table,
batchSize, offset)` on a pure source is `rows.drop offset |>.take
batchSize`; advancing `offset` by `batchSize` is recursing on
`rows.drop batchSize`.  The result pairs the sizes of the pages fetched
(in fetch order, one entry per `selectData` call) with the target table's
rows after all inserts.  The loop stops after an empty page (fetched, not
inserted) or after a short page (fetched and inserted). -/
def migrateLoop (batchSize : Nat) (table : TableDefinition) (now : Int)
    (rows : List JSRow) (target : List JSRow) : List Nat × List JSRow :=
  if (rows.take batchSize).length = 0 then ([0], target)
  else
    let target1 := target ++ transformData (rows.take batchSize) table now
    if (rows.take batchSize).length < batchSize then
      ([(rows.take batchSize).length], target1)
    else
      let rest := migrateLoop batchSize table now (rows.drop batchSize) target1
      ((rows.take batchSize).length :: rest.1, rest.2)
termination_by rows.length
decreasing_by
  simp only [List.length_drop, List.length_take] at *
  omega

/-- `DataMigrator.migrateTableData`: full-copy migration of one table. -/
def migrateTableData (batchSize : Nat) (table : TableDefinition) (now : Int)
    (source : List JSRow) (target : List JSRow) : List Nat × List JSRow :=
  migrateLoop batchSize table now source target

/-- The page sizes fetched by the batch loop, as a function of the batch
size and the source row count only. -/
def fetchSizes (batchSize n : Nat) : List Nat :=
  if batchSize = 0 ∨ n = 0 then [0]
  else if n < batchSize then [n]
  else batchSize :: fetchSizes batchSize (n - batchSize)
termination_by n
decreasing_by omega

/-- Fetch count stated by the spec: `⌈N/B⌉` pages, plus one when `N` is an
exact multiple of `B` (including `N = 0`). -/
def expectedFetches (batchSize n : Nat) : Nat :=
  if batchSize ∣ n then n / batchSize + 1 else (n + batchSize - 1) / batchSize

theorem migrateLoop_spec (batchSize : Nat) (table : TableDefinition) (now : Int) :
    ∀ (n : Nat) (rows : List JSRow) (target : List JSRow), rows.length = n →
      (migrateLoop batchSize table now rows target).1 = fetchSizes batchSize n ∧
      (1 ≤ batchSize →
        (migrateLoop batchSize table now rows target).2.length = target.length + n) := by
  intro n
  induction n using Nat.strong_induction_on with
  | _ n ih =>
    intro rows target hlen
    rw [migrateLoop.eq_def]
    simp only [List.length_take, hlen]
    by_cases h0 : min batchSize n = 0
    · rw [if_pos h0]
      rw [fetchSizes]
      have : batchSize = 0 ∨ n = 0 := by omega
      rw [if_pos this]
      refine ⟨rfl, ?_⟩
      intro hB
      have hn0 : n = 0 := by omega
      simp [hn0]
    · rw [if_neg h0]
      by_cases hlt : min batchSize n < batchSize
      · rw [if_pos hlt]
        have hnB : n < batchSize := by omega
        have hmin : min batchSize n = n := by omega
        rw [fetchSizes]
        rw [if_neg (by omega), if_pos hnB, hmin]
        refine ⟨rfl, ?_⟩
        intro _
        simp [transformData_length, hlen]
        omega
      · rw [if_neg hlt]
        have hmin : min batchSize n = batchSize := by omega
        have hBn : batchSize ≤ n := by omega
        have hB1 : 1 ≤ batchSize := by omega
        have hrec := ih (n - batchSize) (by omega) (rows.drop batchSize)
          (target ++ transformData (rows.take batchSize) table now)
          (by simp [hlen])
        rw [fetchSizes]
        rw [if_neg (by omega), if_neg (by omega), hmin]
        refine ⟨by rw [hrec.1], ?_⟩
        intro _
        rw [hrec.2 hB1]
        simp [transformData_length, hlen]
        omega

theorem fetchSizes_length (batchSize : Nat) (hB : 1 ≤ batchSize) :
    ∀ n : Nat, (fetchSizes batchSize n).length = expectedFetches batchSize n := by
  intro n
  induction n using Nat.strong_induction_on with
  | _ n ih =>
    rw [fetchSizes, expectedFetches]
    by_cases h0 : n = 0
    · subst h0
      rw [if_pos (Or.inr rfl), if_pos (dvd_zero batchSize)]
      simp [Nat.zero_div]
    · rw [if_neg (by omega)]
      by_cases hlt : n < batchSize
      · rw [if_pos hlt]
        have hnd : ¬ batchSize ∣ n := by
          intro hd
          rcases hd with ⟨k, hk⟩
          rcases k with _ | k
          · omega
          · have : batchSize ≤ n := by
              rw [hk]; exact Nat.le_mul_of_pos_right _ (Nat.succ_pos _)
            omega
        rw [if_neg hnd]
        have h1 : 1 ≤ (n + batchSize - 1) / batchSize :=
          (Nat.one_le_div_iff (by omega)).2 (by omega)
        have h2 : (n + batchSize - 1) / batchSize < 2 :=
          (Nat.div_lt_iff_lt_mul (by omega)).2 (by omega)
        simp only [List.length_cons, List.length_nil]
        omega
      · rw [if_neg hlt]
        have hBn : batchSize ≤ n := by omega
        rw [List.length_cons, ih (n - batchSize) (by omega), expectedFetches]
        have hsplit : n = (n - batchSize) + batchSize := by omega
        by_cases hd : batchSize ∣ n
        · have hd2 : batchSize ∣ (n - batchSize) := (Nat.dvd_sub' hd dvd_rfl)
          rw [if_pos hd2, if_pos hd]
          have : n / batchSize = (n - batchSize) / batchSize + 1 := by
            conv_lhs => rw [hsplit]
            rw [Nat.add_div_right _ (by omega)]
          omega
        · have hd2 : ¬ batchSize ∣ (n - batchSize) := by
            intro hc
            exact hd (by
              have := Nat.dvd_add hc (dvd_refl batchSize)
              rwa [← hsplit] at this)
          rw [if_neg hd2, if_neg hd]
          have : (n + batchSize - 1) / batchSize
              = ((n - batchSize) + batchSize - 1) / batchSize + 1 := by
            have he : n + batchSize - 1 = ((n - batchSize) + batchSize - 1) + batchSize := by
              omega
            rw [he, Nat.add_div_right _ (by omega)]
          omega

/-- The `users` table of end-to-end scenario A. -/
def usersTable : TableDefinition :=
  { name := "users"
    columns :=
      [ { name := "id", type := "int", nullable := false }
      , { name := "email", type := "string", nullable := false }
      , { name := "created_at", type := "datetime", nullable := false } ]
    primaryKey := some "id" }

/-- 2,500 source rows for scenario A. -/
def usersRows2500 : List JSRow :=
  List.replicate 2500
    [("id", .vnum 1), ("email", .vstr "user@example.com"),
     ("created_at", .vdate 1700000000000)]

/-- Claim C4: for every batch size B in [1,10000] and every table with N
source rows, `migrateFull` issues ⌈N/B⌉ page fetches (⌈N/B⌉+1 when B
divides N, including N = 0) and inserts exactly N rows into the target;
in particular with N = 2500 and B = 1000 it performs 3 page fetches of
1000, 1000 and 500 rows and the final target count is 2500. -/
theorem c4_migrateFull_fetches_and_count :
    (∀ (batchSize : Nat) (table : TableDefinition) (now : Int)
        (source target : List JSRow), 1 ≤ batchSize → batchSize ≤ 10000 →
        (migrateTableData batchSize table now source target).1.length
            = expectedFetches batchSize source.length ∧
        (migrateTableData batchSize table now source target).2.length
            = target.length + source.length) ∧
    ((migrateTableData 1000 usersTable 0 usersRows2500 []).1 = [1000, 1000, 500] ∧
      (migrateTableData 1000 usersTable 0 usersRows2500 []).2.length = 2500) := by
  have hspec := migrateLoop_spec
  constructor
  · intro batchSize table now source target hB _
    have h := hspec batchSize table now source.length source target rfl
    exact ⟨by rw [migrateTableData, h.1, fetchSizes_length batchSize hB], by
      rw [migrateTableData, h.2 hB]⟩
  · have hlen : usersRows2500.length = 2500 := List.length_replicate 2500 _
    have h := hspec 1000 usersTable 0 2500 usersRows2500 [] hlen
    constructor
    · rw [migrateTableData, h.1]
      rw [fetchSizes, if_neg (by omega), if_neg (by omega)]
      rw [fetchSizes, if_neg (by omega), if_neg (by omega)]
      rw [fetchSizes, if_neg (by omega), if_pos (by omega)]
    · rw [migrateTableData, h.2 (by omega)]
      rfl

/-- Witness for the hypotheses of C4's theorem at B = 2 with 5 source rows. -/
theorem c4_migrateFull_fetches_and_count_witness :
    ((1 : Nat) ≤ 2 ∧ (2 : Nat) ≤ 10000) ∧
    ((migrateTableData 2 usersTable 0 (List.replicate 5 [("id", JSValue.vnum 1)]) []).1.length
        = expectedFetches 2 (List.replicate 5 [("id", JSValue.vnum 1)]).length ∧
      (migrateTableData 2 usersTable 0 (List.replicate 5 [("id", JSValue.vnum 1)]) []).2.length
        = ([] : List JSRow).length + (List.replicate 5 [("id", JSValue.vnum 1)]).length) :=
  ⟨by omega,
   c4_migrateFull_fetches_and_count.1 2 usersTable 0
     (List.replicate 5 [("id", JSValue.vnum 1)]) [] (by omega) (by omega)⟩

/-- A table with a single uuid column, for the uuid-validation claims. -/
def uuidTable : TableDefinition :=
  { name := "ids", columns := [{ name := "u", type := "uuid", nullable := true }] }

/-- Two source rows: one invalid uuid value, one canonical v1 uuid. -/
def uuidRows : List JSRow :=
  [[("u", .vstr "not-a-uuid")],
   [("u", .vstr "123e4567-e89b-12d3-a456-426614174000")]]

/-- Counterexample to claim C5: a full migration over two rows with one
invalid uuid value still transfers both rows — the transferred-row count
equals the source count and is not smaller; the invalid uuid value is
nulled inside its (still transferred) row. -/
theorem c5_counterexample_rows_not_dropped :
    (migrateTableData 1000 uuidTable 0 uuidRows []).2.length = uuidRows.length ∧
    (uuidRows.filter
        (fun r => ! isUuidString (jsToString (jsGet r "u")))).length = 1 ∧
    ¬ ((migrateTableData 1000 uuidTable 0 uuidRows []).2.length < uuidRows.length) ∧
    (migrateTableData 1000 uuidTable 0 uuidRows []).2
      = [[("u", JSValue.vnull)],
         [("u", JSValue.vstr "123e4567-e89b-12d3-a456-426614174000")]] := by
  rw [migrateTableData, migrateLoop.eq_def]
  decide

/-- Claim C5 (amended): `migrateFull` never drops rows — the inserted row
count always equals the source row count — and uuid validation acts on
the cell value: a value matching the canonical pattern is kept as its
string form, a non-matching value becomes null inside its row. -/
theorem c5_amended_uuid_nulls_values :
    ∀ (batchSize : Nat) (table : TableDefinition) (now : Int)
      (source target : List JSRow), 1 ≤ batchSize →
      ((migrateTableData batchSize table now source target).2.length
          = target.length + source.length) ∧
      (∀ v : JSValue, v ≠ .vnull → v ≠ .vundefined →
        transformValue v "uuid" now
          = if isUuidString (jsToString v) then .vstr (jsToString v)
            else .vnull) := by
  intro batchSize table now source target hB
  refine ⟨(migrateLoop_spec batchSize table now source.length source target rfl).2 hB, ?_⟩
  intro v h1 h2
  cases v
  · exact absurd rfl h1
  · exact absurd rfl h2
  · rfl
  · rfl
  · rfl
  · rfl
  · rfl

/-- Witness for the hypotheses of C5's amended theorem at B = 1. -/
theorem c5_amended_uuid_nulls_values_witness :
    ((1 : Nat) ≤ 1) ∧
    (((migrateTableData 1 uuidTable 0 uuidRows []).2.length
        = ([] : List JSRow).length + uuidRows.length) ∧
      (∀ v : JSValue, v ≠ .vnull → v ≠ .vundefined →
        transformValue v "uuid" 0
          = if isUuidString (jsToString v) then .vstr (jsToString v)
            else .vnull)) :=
  ⟨le_refl 1, c5_amended_uuid_nulls_values 1 uuidTable 0 uuidRows [] (le_refl 1)⟩

/-- Association of a column name to its definition.  `none` for keys not
mapped, mirroring `Map.get` on a name-keyed `Map`; for the duplicate-free
column lists assumed by the schema theorems this agrees with the
JavaScript `Map` built in `calculateTableChanges`. -/
def lookupColumn (cols : List ColumnDefinition) (n : String) : Option ColumnDefinition :=
  cols.find? (fun c => c.name == n)

theorem lookupColumn_eq_none (cols : List ColumnDefinition) (n : String) :
    lookupColumn cols n = none ↔ n ∉ cols.map ColumnDefinition.name := by
  rw [lookupColumn, List.find?_eq_none]
  constructor
  · intro h hmem
    rcases List.mem_map.1 hmem with ⟨c, hc, hname⟩
    exact h c hc (by simp [hname])
  · intro h c hc hp
    exact h (List.mem_map.2 ⟨c, hc, by simpa using hp⟩)

theorem lookupColumn_some (cols : List ColumnDefinition) (n : String)
    (c : ColumnDefinition) (h : lookupColumn cols n = some c) :
    c ∈ cols ∧ c.name = n := by
  refine ⟨List.mem_of_find?_eq_some h, ?_⟩
  have := List.find?_some h
  simpa using this

/-- Key lookup over a row built by mapping column definitions to
name-keyed pairs: a key naming none of the columns is absent. -/
theorem lookup_name_map_none (cols : List ColumnDefinition)
    (f : ColumnDefinition → String × JSValue)
    (hf : ∀ c, (f c).1 = c.name) (k : String)
    (hk : k ∉ cols.map ColumnDefinition.name) :
    (cols.map f).lookup k = none := by
  induction cols with
  | nil => rfl
  | cons c cs ih =>
    simp only [List.map_cons, List.mem_cons, not_or] at hk
    rcases hpair : f c with ⟨n, v⟩
    have hn : n = c.name := by rw [← hf c, hpair]
    simp only [List.map_cons, hpair, List.lookup]
    rw [show (k == n) = false from beq_eq_false_iff_ne.2 (by rw [hn]; exact hk.1)]
    exact ih hk.2

/-- Claim C10: each migrated row carries exactly the column names of the
table definition — source columns not named in the definition are
omitted — and null/undefined cells pass through untransformed. -/
theorem c10_transformData_row_shape (table : TableDefinition) (now : Int)
    (data : List JSRow) (r : JSRow) (hr : r ∈ data) :
    (transformRow table now r).map Prod.fst
        = table.columns.map ColumnDefinition.name ∧
    (∀ col ∈ table.columns,
      jsGet r col.name = .vnull ∨ jsGet r col.name = .vundefined →
      (col.name, jsGet r col.name) ∈ transformRow table now r) ∧
    (∀ k : String, k ∉ table.columns.map ColumnDefinition.name →
      (transformRow table now r).lookup k = none) ∧
    transformRow table now r ∈ transformData data table now := by
  refine ⟨?_, ?_, ?_, List.mem_map.2 ⟨r, hr, rfl⟩⟩
  · simp [transformRow, transformCell]
  · intro col hcol hnv
    refine List.mem_map.2 ⟨col, hcol, ?_⟩
    rcases hnv with h | h <;> simp [transformCell, h]
  · intro k hk
    exact lookup_name_map_none table.columns (transformCell now r)
      (fun c => rfl) k hk

/-- Witness for C10 at a concrete table, with an extra source column and a
null cell. -/
theorem c10_transformData_row_shape_witness :
    ([("a", JSValue.vnull), ("extra", JSValue.vstr "x")] ∈
        [[("a", JSValue.vnull), ("extra", JSValue.vstr "x")]]) ∧
    ((transformRow usersTable 0 [("a", JSValue.vnull), ("extra", JSValue.vstr "x")]).map
          Prod.fst = usersTable.columns.map ColumnDefinition.name ∧
      (∀ col ∈ usersTable.columns,
        jsGet [("a", JSValue.vnull), ("extra", JSValue.vstr "x")] col.name = .vnull ∨
          jsGet [("a", JSValue.vnull), ("extra", JSValue.vstr "x")] col.name = .vundefined →
        (col.name, jsGet [("a", JSValue.vnull), ("extra", JSValue.vstr "x")] col.name)
          ∈ transformRow usersTable 0 [("a", JSValue.vnull), ("extra", JSValue.vstr "x")]) ∧
      (∀ k : String, k ∉ usersTable.columns.map ColumnDefinition.name →
        (transformRow usersTable 0
            [("a", JSValue.vnull), ("extra", JSValue.vstr "x")]).lookup k = none) ∧
      transformRow usersTable 0 [("a", JSValue.vnull), ("extra", JSValue.vstr "x")]
        ∈ transformData [[("a", JSValue.vnull), ("extra", JSValue.vstr "x")]] usersTable 0) :=
  ⟨List.mem_singleton.2 rfl,
   c10_transformData_row_shape usersTable 0 _ _ (List.mem_singleton.2 rfl)⟩

/-- The return shape of `SchemaEvolution.calculateTableChanges` (its
optional `constraints` member is never populated by the code and is
omitted). -/
structure TableChanges where
  addColumns : List ColumnDefinition
  modifyColumns : List ColumnDefinition
  dropColumns : List ColumnDefinition
deriving DecidableEq, Repr

/-- `SchemaEvolution.columnsDiffer`: structural comparison of type,
nullability and default. -/
def columnsDiffer (current target : ColumnDefinition) : Bool :=
  (current.type ≠ target.type) || (current.nullable ≠ target.nullable) ||
    (current.defaultValue ≠ target.defaultValue)

/-- `SchemaEvolution.calculateTableChanges`: name-keyed diff.  The code's
single pass over the target's name-keyed `Map`, pushing each column to
the add or modify list, produces the same lists as these two filters. -/
def calculateTableChanges (current target : TableDefinition) : TableChanges :=
  { addColumns := target.columns.filter
      (fun tc => (lookupColumn current.columns tc.name).isNone)
    modifyColumns := target.columns.filter (fun tc =>
      match lookupColumn current.columns tc.name with
      | some cc => columnsDiffer cc tc
      | none => false)
    dropColumns := current.columns.filter
      (fun cc => (lookupColumn target.columns cc.name).isNone) }

/-- Modify-step of the change application: `ALTER COLUMN` replaces the
same-named column in place, leaving columns the plan does not modify. -/
def applyModify (modifyCols : List ColumnDefinition) (c : ColumnDefinition) :
    ColumnDefinition :=
  match lookupColumn modifyCols c.name with
  | some m => m
  | none => c

/-- Modelled from the spec: the structural effect, on a table's column
list, of applying the planned changes in the order `evolveExistingTable`
uses — `ADD COLUMN` for each add (appends), `ALTER COLUMN` for each
modify (replaces the same-named column in place), `DROP COLUMN` for each
drop (removes).  The source applies these as SQL statements through the
adapter; the claim's application-equivalence property is stated against
this column-list semantics. -/
def applyTableChanges (cols : List ColumnDefinition) (changes : TableChanges) :
    List ColumnDefinition :=
  ((cols ++ changes.addColumns).map (applyModify changes.modifyColumns)).filter
    (fun c => (lookupColumn changes.dropColumns c.name).isNone)

theorem applyModify_name (modifyCols : List ColumnDefinition) (c : ColumnDefinition) :
    (applyModify modifyCols c).name = c.name := by
  rw [applyModify]
  cases hf : lookupColumn modifyCols c.name with
  | none => rfl
  | some m => exact (lookupColumn_some _ _ _ hf).2

theorem mem_addColumns_iff (current target : TableDefinition) (c : ColumnDefinition) :
    c ∈ (calculateTableChanges current target).addColumns ↔
      c ∈ target.columns ∧ c.name ∉ current.columns.map ColumnDefinition.name := by
  simp only [calculateTableChanges, List.mem_filter,
    Option.isNone_iff_eq_none, lookupColumn_eq_none]

theorem mem_dropColumns_iff (current target : TableDefinition) (c : ColumnDefinition) :
    c ∈ (calculateTableChanges current target).dropColumns ↔
      c ∈ current.columns ∧ c.name ∉ target.columns.map ColumnDefinition.name := by
  simp only [calculateTableChanges, List.mem_filter,
    Option.isNone_iff_eq_none, lookupColumn_eq_none]

theorem mem_modifyColumns_iff (current target : TableDefinition)
    (hc : (current.columns.map ColumnDefinition.name).Nodup) (c : ColumnDefinition) :
    c ∈ (calculateTableChanges current target).modifyColumns ↔
      c ∈ target.columns ∧ ∃ cc ∈ current.columns,
        cc.name = c.name ∧ columnsDiffer cc c = true := by
  simp only [calculateTableChanges, List.mem_filter]
  constructor
  · rintro ⟨hmem, hp⟩
    refine ⟨hmem, ?_⟩
    cases hfind : lookupColumn current.columns c.name with
    | none => rw [hfind] at hp; simp at hp
    | some cc =>
      rw [hfind] at hp
      exact ⟨cc, (lookupColumn_some _ _ _ hfind).1,
        (lookupColumn_some _ _ _ hfind).2, hp⟩
  · rintro ⟨hmem, cc, hccmem, hname, hdiff⟩
    refine ⟨hmem, ?_⟩
    cases hfind : lookupColumn current.columns c.name with
    | none =>
      exfalso
      rw [lookupColumn_eq_none] at hfind
      exact hfind (List.mem_map.2 ⟨cc, hccmem, hname⟩)
    | some cc2 =>
      obtain ⟨h2mem, h2name⟩ := lookupColumn_some _ _ _ hfind
      have heq : cc2 = cc :=
        List.inj_on_of_nodup_map hc h2mem hccmem (h2name.trans hname.symm)
      rw [heq]
      exact hdiff

theorem applyTableChanges_names (current target : TableDefinition) (n : String) :
    (n ∈ (applyTableChanges current.columns
        (calculateTableChanges current target)).map ColumnDefinition.name) ↔
      n ∈ target.columns.map ColumnDefinition.name := by
  have hg : ∀ c : ColumnDefinition,
      (applyModify (calculateTableChanges current target).modifyColumns c).name
        = c.name :=
    applyModify_name (calculateTableChanges current target).modifyColumns
  have hnotdrop : ∀ m : String, m ∈ target.columns.map ColumnDefinition.name →
      lookupColumn (calculateTableChanges current target).dropColumns m = none := by
    intro m hm
    rw [lookupColumn_eq_none]
    intro hmem
    rcases List.mem_map.1 hmem with ⟨d, hd, hdn⟩
    exact ((mem_dropColumns_iff current target d).1 hd).2 (hdn ▸ hm)
  constructor
  · intro hmem
    rcases List.mem_map.1 hmem with ⟨c, hcf, hcn⟩
    rcases List.mem_filter.1 hcf with ⟨hcm, hcp⟩
    rcases List.mem_map.1 hcm with ⟨c0, hc0, hgc⟩
    have hname : c.name = c0.name := by rw [← hgc]; exact hg c0
    rcases List.mem_append.1 hc0 with h0 | h0
    · by_contra htgt
      have hdropmem : c0 ∈ (calculateTableChanges current target).dropColumns :=
        (mem_dropColumns_iff current target c0).2
          ⟨h0, by rw [← hname, hcn]; exact htgt⟩
      have : lookupColumn (calculateTableChanges current target).dropColumns c.name
          ≠ none := by
        intro hnone
        rw [lookupColumn_eq_none] at hnone
        exact hnone (List.mem_map.2 ⟨c0, hdropmem, hname.symm⟩)
      rw [Option.isNone_iff_eq_none] at hcp
      exact this hcp
    · have := (mem_addColumns_iff current target c0).1 h0
      exact List.mem_map.2 ⟨c0, this.1, by rw [← hname, hcn]⟩
  · intro hmem
    by_cases hcur : n ∈ current.columns.map ColumnDefinition.name
    · rcases List.mem_map.1 hcur with ⟨cc, hcc, hccn⟩
      have hcc0 : cc ∈ current.columns ++ (calculateTableChanges current target).addColumns :=
        List.mem_append.2 (Or.inl hcc)
      refine List.mem_map.2 ⟨_, List.mem_filter.2 ⟨List.mem_map.2 ⟨cc, hcc0, rfl⟩, ?_⟩, ?_⟩
      · rw [Option.isNone_iff_eq_none, hg cc, hccn]
        exact hnotdrop n hmem
      · rw [hg cc]
        exact hccn
    · rcases List.mem_map.1 hmem with ⟨tc, htc, htcn⟩
      have haddmem : tc ∈ (calculateTableChanges current target).addColumns :=
        (mem_addColumns_iff current target tc).2 ⟨htc, by rw [htcn]; exact hcur⟩
      have htc0 : tc ∈ current.columns ++ (calculateTableChanges current target).addColumns :=
        List.mem_append.2 (Or.inr haddmem)
      refine List.mem_map.2 ⟨_, List.mem_filter.2 ⟨List.mem_map.2 ⟨tc, htc0, rfl⟩, ?_⟩, ?_⟩
      · rw [Option.isNone_iff_eq_none, hg tc, htcn]
        exact hnotdrop n hmem
      · rw [hg tc]
        exact htcn

/-- A one-column table used by the C7 counterexample. -/
def idTable : TableDefinition :=
  { name := "t", columns := [{ name := "id", type := "integer", nullable := false }] }

/-- Counterexample to claim C7: diffing a table against itself yields
empty add/modify/drop sets, so the union of the change-set names is empty
while the union of both column-name sets contains `id` — the two are not
equal (an unchanged common column belongs to no change set). -/
theorem c7_counterexample_union_of_names :
    calculateTableChanges idTable idTable = ⟨[], [], []⟩ ∧
    "id" ∈ (idTable.columns.map ColumnDefinition.name
        ++ idTable.columns.map ColumnDefinition.name) ∧
    "id" ∉ (((calculateTableChanges idTable idTable).addColumns
        ++ (calculateTableChanges idTable idTable).modifyColumns
        ++ (calculateTableChanges idTable idTable).dropColumns).map
          ColumnDefinition.name) := by
  decide

/-- Claim C7 (amended): for duplicate-free column names the add/modify/drop
sets are pairwise name-disjoint and exactly characterized — add holds the
target columns absent from current, drop the current columns absent from
target, modify the columns present in both whose type, nullability, or
default differ structurally; the union of their names is the symmetric
difference of the two name sets plus the names of the differing common
columns (not the full union of both name sets — an unchanged common
column appears in no set); and applying add then modify then drop to
current yields a structure column-name-equivalent to target. -/
theorem c7_amended_diff_characterization (current target : TableDefinition)
    (hc : (current.columns.map ColumnDefinition.name).Nodup)
    (ht : (target.columns.map ColumnDefinition.name).Nodup) :
    (∀ n : String,
      ¬(n ∈ (calculateTableChanges current target).addColumns.map ColumnDefinition.name ∧
        n ∈ (calculateTableChanges current target).modifyColumns.map ColumnDefinition.name) ∧
      ¬(n ∈ (calculateTableChanges current target).addColumns.map ColumnDefinition.name ∧
        n ∈ (calculateTableChanges current target).dropColumns.map ColumnDefinition.name) ∧
      ¬(n ∈ (calculateTableChanges current target).modifyColumns.map ColumnDefinition.name ∧
        n ∈ (calculateTableChanges current target).dropColumns.map ColumnDefinition.name)) ∧
    (∀ c : ColumnDefinition,
      c ∈ (calculateTableChanges current target).addColumns ↔
        c ∈ target.columns ∧ c.name ∉ current.columns.map ColumnDefinition.name) ∧
    (∀ c : ColumnDefinition,
      c ∈ (calculateTableChanges current target).dropColumns ↔
        c ∈ current.columns ∧ c.name ∉ target.columns.map ColumnDefinition.name) ∧
    (∀ c : ColumnDefinition,
      c ∈ (calculateTableChanges current target).modifyColumns ↔
        c ∈ target.columns ∧ ∃ cc ∈ current.columns,
          cc.name = c.name ∧ columnsDiffer cc c = true) ∧
    (∀ n : String,
      (n ∈ ((calculateTableChanges current target).addColumns
          ++ (calculateTableChanges current target).modifyColumns
          ++ (calculateTableChanges current target).dropColumns).map
            ColumnDefinition.name) ↔
        ((n ∈ target.columns.map ColumnDefinition.name ∧
            n ∉ current.columns.map ColumnDefinition.name) ∨
          (n ∈ current.columns.map ColumnDefinition.name ∧
            n ∉ target.columns.map ColumnDefinition.name) ∨
          (∃ cc ∈ current.columns, ∃ tc ∈ target.columns,
            cc.name = n ∧ tc.name = n ∧ columnsDiffer cc tc = true))) ∧
    (∀ n : String,
      (n ∈ (applyTableChanges current.columns
          (calculateTableChanges current target)).map ColumnDefinition.name) ↔
        n ∈ target.columns.map ColumnDefinition.name) := by
  have hAdd := mem_addColumns_iff current target
  have hDrop := mem_dropColumns_iff current target
  have hMod := mem_modifyColumns_iff current target hc
  have hAddName : ∀ n : String,
      (n ∈ (calculateTableChanges current target).addColumns.map ColumnDefinition.name) ↔
        ∃ c ∈ target.columns, c.name = n ∧
          n ∉ current.columns.map ColumnDefinition.name := by
    intro n
    constructor
    · intro h
      rcases List.mem_map.1 h with ⟨c, hcmem, hcn⟩
      rcases (hAdd c).1 hcmem with ⟨h1, h2⟩
      exact ⟨c, h1, hcn, hcn ▸ h2⟩
    · rintro ⟨c, h1, h2, h3⟩
      exact List.mem_map.2 ⟨c, (hAdd c).2 ⟨h1, h2.symm ▸ h3⟩, h2⟩
  have hDropName : ∀ n : String,
      (n ∈ (calculateTableChanges current target).dropColumns.map ColumnDefinition.name) ↔
        ∃ c ∈ current.columns, c.name = n ∧
          n ∉ target.columns.map ColumnDefinition.name := by
    intro n
    constructor
    · intro h
      rcases List.mem_map.1 h with ⟨c, hcmem, hcn⟩
      rcases (hDrop c).1 hcmem with ⟨h1, h2⟩
      exact ⟨c, h1, hcn, hcn ▸ h2⟩
    · rintro ⟨c, h1, h2, h3⟩
      exact List.mem_map.2 ⟨c, (hDrop c).2 ⟨h1, h2.symm ▸ h3⟩, h2⟩
  have hModName : ∀ n : String,
      (n ∈ (calculateTableChanges current target).modifyColumns.map ColumnDefinition.name) ↔
        ∃ tc ∈ target.columns, tc.name = n ∧ ∃ cc ∈ current.columns,
          cc.name = n ∧ columnsDiffer cc tc = true := by
    intro n
    constructor
    · intro h
      rcases List.mem_map.1 h with ⟨c, hcmem, hcn⟩
      rcases (hMod c).1 hcmem with ⟨h1, cc, hccm, hccn, hdiff⟩
      exact ⟨c, h1, hcn, cc, hccm, hccn.trans hcn, hdiff⟩
    · rintro ⟨tc, h1, h2, cc, h3, h4, h5⟩
      exact List.mem_map.2 ⟨tc, (hMod tc).2 ⟨h1, cc, h3, h4.trans h2.symm, h5⟩, h2⟩
  refine ⟨?_, hAdd, hDrop, hMod, ?_, applyTableChanges_names current target⟩
  · intro n
    refine ⟨?_, ?_, ?_⟩
    · rintro ⟨ha, hm⟩
      rcases (hAddName n).1 ha with ⟨c, _, _, hnc⟩
      rcases (hModName n).1 hm with ⟨tc, _, _, cc, hccm, hccn, _⟩
      exact hnc (List.mem_map.2 ⟨cc, hccm, hccn⟩)
    · rintro ⟨ha, hd⟩
      rcases (hAddName n).1 ha with ⟨c, hcm, hcn, _⟩
      rcases (hDropName n).1 hd with ⟨d, _, _, hnt⟩
      exact hnt (List.mem_map.2 ⟨c, hcm, hcn⟩)
    · rintro ⟨hm, hd⟩
      rcases (hModName n).1 hm with ⟨tc, htcm, htcn, _⟩
      rcases (hDropName n).1 hd with ⟨d, _, _, hnt⟩
      exact hnt (List.mem_map.2 ⟨tc, htcm, htcn⟩)
  · intro n
    constructor
    · intro h
      rcases List.mem_map.1 h with ⟨c, hcmem, hcn⟩
      rcases List.mem_append.1 hcmem with h1 | h1
      rcases List.mem_append.1 h1 with h2 | h2
      · rcases (hAdd c).1 h2 with ⟨ht1, ht2⟩
        exact Or.inl ⟨List.mem_map.2 ⟨c, ht1, hcn⟩, hcn ▸ ht2⟩
      · rcases (hMod c).1 h2 with ⟨ht1, cc, hccm, hccn, hdiff⟩
        exact Or.inr (Or.inr ⟨cc, hccm, c, ht1, hccn.trans hcn, hcn, hdiff⟩)
      · rcases (hDrop c).1 h1 with ⟨ht1, ht2⟩
        exact Or.inr (Or.inl ⟨List.mem_map.2 ⟨c, ht1, hcn⟩, hcn ▸ ht2⟩)
    · rintro (⟨h1, h2⟩ | ⟨h1, h2⟩ | ⟨cc, hccm, tc, htcm, hccn, htcn, hdiff⟩)
      · rcases List.mem_map.1 h1 with ⟨c, hcm, hcn⟩
        exact List.mem_map.2 ⟨c, List.mem_append.2 (Or.inl (List.mem_append.2
          (Or.inl ((hAdd c).2 ⟨hcm, by rw [hcn]; exact h2⟩)))), hcn⟩
      · rcases List.mem_map.1 h1 with ⟨c, hcm, hcn⟩
        exact List.mem_map.2 ⟨c, List.mem_append.2 (Or.inr ((hDrop c).2
          ⟨hcm, by rw [hcn]; exact h2⟩)), hcn⟩
      · exact List.mem_map.2 ⟨tc, List.mem_append.2 (Or.inl (List.mem_append.2
          (Or.inr ((hMod tc).2 ⟨htcm, cc, hccm, hccn.trans htcn.symm, hdiff⟩)))), htcn⟩

/-- Concrete current table for the C7 witness. -/
def currentTableW : TableDefinition :=
  { name := "t"
    columns :=
      [ { name := "id", type := "integer", nullable := false }
      , { name := "email", type := "string", nullable := true } ] }

/-- Concrete target table for the C7 witness: `id` changes type, `phone`
is new. -/
def targetTableW : TableDefinition :=
  { name := "t"
    columns :=
      [ { name := "id", type := "bigint", nullable := false }
      , { name := "email", type := "string", nullable := true }
      , { name := "phone", type := "string", nullable := true } ] }

/-- Witness for the hypotheses of C7's amended theorem at a concrete pair
of tables. -/
theorem c7_amended_diff_characterization_witness :
    ((currentTableW.columns.map ColumnDefinition.name).Nodup ∧
      (targetTableW.columns.map ColumnDefinition.name).Nodup) ∧
    (∀ n : String,
      (n ∈ (applyTableChanges currentTableW.columns
          (calculateTableChanges currentTableW targetTableW)).map
            ColumnDefinition.name) ↔
        n ∈ targetTableW.columns.map ColumnDefinition.name) :=
  ⟨⟨by decide, by decide⟩,
   (c7_amended_diff_characterization currentTableW targetTableW
     (by decide) (by decide)).2.2.2.2.2⟩

/-- Job lifecycle status (`MigrationJob.status` in `src/types`). -/
inductive JobStatus where
  | pending
  | running
  | completed
  | failed
  | paused
deriving DecidableEq, Repr

/-- One entry of a job's append-only log. -/
structure MigrationLog where
  timestamp : Int
  level : String
  message : String
deriving DecidableEq, Repr

/-- `MigrationStrategy` (`src/types`). -/
structure MigrationStrategy where
  id : String
  name : String
  description : String
  estimatedDuration : Int
  riskLevel : String
  downtime : Bool
  rollbackSupported : Bool
deriving DecidableEq, Repr

/-- `MigrationJob` (`src/types`).  The source/target endpoint descriptors
are opaque to every claim and are modelled as opaque strings; `progress`
is an integer percentage (the claims never exercise the fractional
progress arithmetic). -/
structure MigrationJob where
  id : String
  status : JobStatus
  sourceDatabase : String
  targetDatabase : String
  strategy : MigrationStrategy
  progress : Int
  logs : List MigrationLog
  startTime : Option Int := none
  endTime : Option Int := none
  error : Option String := none
deriving DecidableEq, Repr

/-- The `MigrationEngine`'s job registry (`jobs : Map<string, MigrationJob>`),
as an association list keyed by job id. -/
structure MigrationEngine where
  jobs : List (String × MigrationJob)
deriving DecidableEq, Repr

/-- `this.jobs.get(jobId)`. -/
def jobsLookup (engine : MigrationEngine) (jobId : String) : Option MigrationJob :=
  engine.jobs.lookup jobId

/-- `this.jobs.set(jobId, job)` for an id already present: replaces the
stored job in place. -/
def jobsSet (engine : MigrationEngine) (jobId : String) (job : MigrationJob) :
    MigrationEngine :=
  { jobs := engine.jobs.map (fun p => if p.1 = jobId then (jobId, job) else p) }

/-- Lines 528-536 of `MigrationEngine.startMigration`: with the job merely
found (no status check in the code), set it to `running`, stamp the start
time and push the starting log entry. -/
def startMigrationMark (job : MigrationJob) (now : Int) : MigrationJob :=
  { job with
    status := .running
    startTime := some now
    logs := job.logs ++
      [{ timestamp := now, level := "info",
         message := "Starting migration with strategy: " ++ job.strategy.name }] }

/-- `executeMigration`'s job-visible effect on success: status
`completed`, end time, progress 100, completion log entry.  The adapter
resolution and schema/data phases in between are abstracted to the
execution outcome parameter of `startMigration`. -/
def completeMigrationJob (job : MigrationJob) (nowEnd : Int) : MigrationJob :=
  { job with
    status := .completed
    endTime := some nowEnd
    progress := 100
    logs := job.logs ++
      [{ timestamp := nowEnd, level := "info",
         message := "Migration completed successfully" }] }

/-- The catch block of `startMigration`: status `failed`, captured error
message, failure log entry; the error is re-raised. -/
def failMigrationJob (job : MigrationJob) (nowEnd : Int) (msg : String) :
    MigrationJob :=
  { job with
    status := .failed
    error := some msg
    logs := job.logs ++
      [{ timestamp := nowEnd, level := "error",
         message := "Migration failed: " ++ msg }] }

/-- `MigrationEngine.startMigration`.  `execOutcome` abstracts the result
of `executeMigration`'s adapter work (`Except.error` is any exception it
throws).  The returned `Option String` is the exception re-raised to the
caller, `none` on success; the engine component is the post-call job
registry. -/
def startMigration (engine : MigrationEngine) (jobId : String) (now nowEnd : Int)
    (execOutcome : Except String Unit) : Option String × MigrationEngine :=
  match jobsLookup engine jobId with
  | none => (some ("Migration job " ++ jobId ++ " not found"), engine)
  | some job =>
    let job1 := startMigrationMark job now
    match execOutcome with
    | .ok _ => (none, jobsSet engine jobId (completeMigrationJob job1 nowEnd))
    | .error e => (some e, jobsSet engine jobId (failMigrationJob job1 nowEnd e))

/-- `MigrationEngine.pauseMigration`.  The first component is the
exception thrown (`none` if the call succeeds); the thrown path performs
no mutation, so the engine is returned unchanged there, mirroring that
the guard is the first statement of the method. -/
def pauseMigration (engine : MigrationEngine) (jobId : String) (now : Int) :
    Option String × MigrationEngine :=
  match jobsLookup engine jobId with
  | none => (some ("Cannot pause job " ++ jobId), engine)
  | some job =>
    if job.status ≠ .running then (some ("Cannot pause job " ++ jobId), engine)
    else
      (none, jobsSet engine jobId
        { job with
          status := .paused
          logs := job.logs ++
            [{ timestamp := now, level := "info", message := "Migration paused" }] })

/-- A completed job used by the C2 counterexample and the C9 witness. -/
def completedJobW : MigrationJob :=
  { id := "job-1"
    status := .completed
    sourceDatabase := "postgresql://src"
    targetDatabase := "mysql://tgt"
    strategy :=
      { id := "default-full", name := "Full Migration with Downtime"
        description := "Complete migration with scheduled downtime"
        estimatedDuration := 3600000, riskLevel := "medium"
        downtime := true, rollbackSupported := true }
    progress := 100
    logs := []
    startTime := some 0
    endTime := some 50
    error := none }

/-- Engine holding only the completed job. -/
def engineW : MigrationEngine := { jobs := [("job-1", completedJobW)] }

/-- Counterexample to claim C2: `startMigration` on a job whose status is
`completed` (neither pending nor running) still transitions it to
`running` — the marking step has no status guard — and a subsequent
execution failure then moves the completed job to `failed`, a backward
move outside the rollback path. -/
theorem c2_counterexample_start_completed_job :
    completedJobW.status = .completed ∧
    (startMigrationMark completedJobW 60).status = .running ∧
    (jobsLookup (startMigration engineW "job-1" 60 61 (.error "boom")).2 "job-1").map
        MigrationJob.status = some .failed ∧
    (startMigration engineW "job-1" 60 61 (.error "boom")).1 = some "boom" := by
  decide

/-- Claim C2 (amended): `startMigration` checks only that the job exists;
any found job — whatever its status, including completed or failed — is
transitioned to `running` by the unguarded marking step, then settles to
`completed` or `failed` with the execution outcome.  Monotonicity along
the state machine is therefore not enforced by `startMigration`. -/
theorem c2_amended_start_unguarded (engine : MigrationEngine) (jobId : String)
    (job : MigrationJob) (now nowEnd : Int) (e : String)
    (hfound : jobsLookup engine jobId = some job) :
    (startMigrationMark job now).status = .running ∧
    startMigration engine jobId now nowEnd (.ok ()) =
      (none, jobsSet engine jobId
        (completeMigrationJob (startMigrationMark job now) nowEnd)) ∧
    startMigration engine jobId now nowEnd (.error e) =
      (some e, jobsSet engine jobId
        (failMigrationJob (startMigrationMark job now) nowEnd e)) := by
  refine ⟨rfl, ?_, ?_⟩ <;> rw [startMigration, hfound]

/-- Witness for the hypotheses of C2's amended theorem on the engine with
the completed job. -/
theorem c2_amended_start_unguarded_witness :
    (jobsLookup engineW "job-1" = some completedJobW) ∧
    ((startMigrationMark completedJobW 60).status = .running ∧
      startMigration engineW "job-1" 60 61 (.ok ()) =
        (none, jobsSet engineW "job-1"
          (completeMigrationJob (startMigrationMark completedJobW 60) 61)) ∧
      startMigration engineW "job-1" 60 61 (.error "boom") =
        (some "boom", jobsSet engineW "job-1"
          (failMigrationJob (startMigrationMark completedJobW 60) 61 "boom"))) :=
  ⟨by decide,
   c2_amended_start_unguarded engineW "job-1" completedJobW 60 61 "boom" (by decide)⟩

/-- Claim C9: `pauseMigration` on a job that is not `running` throws the
invalid-transition error and leaves the job registry — the job's status,
progress, logs and every other field — entirely unchanged. -/
theorem c9_pause_rejected_job_untouched (engine : MigrationEngine) (jobId : String)
    (job : MigrationJob) (now : Int) (hfound : jobsLookup engine jobId = some job)
    (hstatus : job.status ≠ .running) :
    pauseMigration engine jobId now = (some ("Cannot pause job " ++ jobId), engine) := by
  rw [pauseMigration, hfound]
  simp only []
  rw [if_pos hstatus]

/-- Witness for C9: pause requested on the completed job (end-to-end
scenario E). -/
theorem c9_pause_rejected_job_untouched_witness :
    (jobsLookup engineW "job-1" = some completedJobW ∧
      completedJobW.status ≠ .running) ∧
    pauseMigration engineW "job-1" 70 = (some ("Cannot pause job " ++ "job-1"), engineW) :=
  ⟨⟨by decide, by decide⟩,
   c9_pause_rejected_job_untouched engineW "job-1" completedJobW 70
     (by decide) (by decide)⟩

/-- One entry of the mismatch list returned by `validateDataIntegrity`:
the table name together with both row counts. -/
structure IntegrityMismatch where
  table : String
  sourceCount : Nat
  targetCount : Nat
deriving DecidableEq, Repr

/-- Return shape of `validateDataIntegrity`. -/
structure IntegrityReport where
  isValid : Bool
  mismatches : List IntegrityMismatch
deriving DecidableEq, Repr

/-- The mismatch accumulation loop of `DataMigrator.validateDataIntegrity`:
the adapters are abstracted to their `getCount` behaviour, a row count
per table name. -/
def integrityMismatches (sourceCount targetCount : String → Nat)
    (tables : List TableDefinition) : List IntegrityMismatch :=
  tables.filterMap (fun t =>
    if sourceCount t.name ≠ targetCount t.name then
      some { table := t.name, sourceCount := sourceCount t.name,
             targetCount := targetCount t.name }
    else none)

/-- `DataMigrator.validateDataIntegrity`. -/
def validateDataIntegrity (sourceCount targetCount : String → Nat)
    (tables : List TableDefinition) : IntegrityReport :=
  { isValid := (integrityMismatches sourceCount targetCount tables).length == 0
    mismatches := integrityMismatches sourceCount targetCount tables }

/-- Claim C8: `validateDataIntegrity` reports `isValid = false` together
with a non-empty mismatch list exactly when some table's source and
target counts differ; the mismatch list holds exactly the affected
tables, each entry carrying both counts; and validity is equivalent to an
empty mismatch list (the result is the full list, never a bare boolean). -/
theorem c8_validateDataIntegrity_mismatches (sourceCount targetCount : String → Nat)
    (tables : List TableDefinition) :
    (((validateDataIntegrity sourceCount targetCount tables).isValid = false ∧
        (validateDataIntegrity sourceCount targetCount tables).mismatches ≠ []) ↔
      ∃ t ∈ tables, sourceCount t.name ≠ targetCount t.name) ∧
    (∀ e : IntegrityMismatch,
      e ∈ (validateDataIntegrity sourceCount targetCount tables).mismatches ↔
        ∃ t ∈ tables, e.table = t.name ∧ e.sourceCount = sourceCount t.name ∧
          e.targetCount = targetCount t.name ∧
          sourceCount t.name ≠ targetCount t.name) ∧
    ((validateDataIntegrity sourceCount targetCount tables).isValid = true ↔
      (validateDataIntegrity sourceCount targetCount tables).mismatches = []) := by
  have hmem : ∀ e : IntegrityMismatch,
      e ∈ integrityMismatches sourceCount targetCount tables ↔
        ∃ t ∈ tables, e.table = t.name ∧ e.sourceCount = sourceCount t.name ∧
          e.targetCount = targetCount t.name ∧
          sourceCount t.name ≠ targetCount t.name := by
    intro e
    rw [integrityMismatches, List.mem_filterMap]
    constructor
    · rintro ⟨t, ht, hf⟩
      by_cases hd : sourceCount t.name ≠ targetCount t.name
      · rw [if_pos hd] at hf
        rcases Option.some.inj hf with rfl
        exact ⟨t, ht, rfl, rfl, rfl, hd⟩
      · rw [if_neg hd] at hf
        exact absurd hf (by simp)
    · rintro ⟨t, ht, h1, h2, h3, hd⟩
      refine ⟨t, ht, ?_⟩
      rw [if_pos hd]
      cases e
      simp only at h1 h2 h3
      rw [h1, h2, h3]
  have hvalid : (validateDataIntegrity sourceCount targetCount tables).isValid = true ↔
      (validateDataIntegrity sourceCount targetCount tables).mismatches = [] := by
    rw [validateDataIntegrity]
    simp [List.length_eq_zero]
  refine ⟨?_, hmem, hvalid⟩
  constructor
  · rintro ⟨_, hne⟩
    rcases List.exists_mem_of_ne_nil _ hne with ⟨e, he⟩
    rcases (hmem e).1 he with ⟨t, ht, _, _, _, hd⟩
    exact ⟨t, ht, hd⟩
  · rintro ⟨t, ht, hd⟩
    have hin : (⟨t.name, sourceCount t.name, targetCount t.name⟩ : IntegrityMismatch)
        ∈ integrityMismatches sourceCount targetCount tables :=
      (hmem _).2 ⟨t, ht, rfl, rfl, rfl, hd⟩
    have hne : integrityMismatches sourceCount targetCount tables ≠ [] :=
      List.ne_nil_of_mem hin
    refine ⟨?_, hne⟩
    rw [validateDataIntegrity]
    simp only [beq_eq_false_iff_ne, ne_eq]
    simp [List.length_eq_zero, hne]

/-- Read a row's timestamp column as a date; `none` models SQL `NULL`
(missing column, or a non-date cell). -/
def jsRowTs (k : String) (r : JSRow) : Option Int :=
  match r.lookup k with
  | some (.vdate ms) => some ms
  | _ => none

/-- SQL aggregate `MAX` over a column: `NULL`s are ignored; `none` when no
non-`NULL` value exists. -/
def sqlMax (vals : List (Option Int)) : Option Int :=
  vals.foldl
    (fun acc v =>
      match acc, v with
      | none, v => v
      | some a, none => some a
      | some a, some b => some (max a b))
    none

/-- `DataMigrator.getWatermark`: `MAX(updated_at)` and `MAX(created_at)`
over the target table, combined as in the code (`new Date(0)`, the epoch,
when the table is empty or has no timestamps). -/
def getWatermark (target : List JSRow) : Int :=
  match sqlMax (target.map (jsRowTs "updated_at")),
      sqlMax (target.map (jsRowTs "created_at")) with
  | some u, some c => max u c
  | some u, none => u
  | none, some c => c
  | none, none => 0

/-- The SQL filter `updated_at > ? OR created_at > ?`: a `NULL` timestamp
compares as false. -/
def rowNewerThan (w : Int) (r : JSRow) : Bool :=
  (match jsRowTs "updated_at" r with
   | some t => w < t
   | none => false) ||
  (match jsRowTs "created_at" r with
   | some t => w < t
   | none => false)

/-- `ORDER BY updated_at, created_at` comparison: lexicographic on the two
timestamps, `NULL`s ordered last (the relational backends' ascending
default; the claims only exercise rows carrying both timestamps). -/
def tsKeyLe (a b : JSRow) : Bool :=
  match jsRowTs "updated_at" a, jsRowTs "updated_at" b with
  | some ua, some ub =>
    if ua = ub then
      match jsRowTs "created_at" a, jsRowTs "created_at" b with
      | some ca, some cb => ca ≤ cb
      | some _, none => true
      | none, some _ => false
      | none, none => true
    else ua < ub
  | some _, none => true
  | none, some _ => false
  | none, none => true

/-- Insertion into a sorted list, for the `ORDER BY` model. -/
def insertOrd {α : Type} (le : α → α → Bool) (x : α) : List α → List α
  | [] => [x]
  | y :: ys => if le x y then x :: y :: ys else y :: insertOrd le x ys

/-- Insertion sort, the model of the backend's `ORDER BY`. -/
def insertionSortBy {α : Type} (le : α → α → Bool) : List α → List α
  | [] => []
  | x :: xs => insertOrd le x (insertionSortBy le xs)

theorem mem_insertOrd {α : Type} (le : α → α → Bool) (x a : α) (l : List α) :
    a ∈ insertOrd le x l ↔ a = x ∨ a ∈ l := by
  induction l with
  | nil => simp [insertOrd]
  | cons y ys ih =>
    rw [insertOrd]
    by_cases h : le x y = true
    · rw [if_pos h]
      simp
    · rw [if_neg h]
      simp only [List.mem_cons, ih]
      tauto

theorem mem_insertionSortBy {α : Type} (le : α → α → Bool) (a : α) (l : List α) :
    a ∈ insertionSortBy le l ↔ a ∈ l := by
  induction l with
  | nil => simp [insertionSortBy]
  | cons x xs ih =>
    rw [insertionSortBy, mem_insertOrd]
    simp [ih]

theorem length_insertOrd {α : Type} (le : α → α → Bool) (x : α) (l : List α) :
    (insertOrd le x l).length = l.length + 1 := by
  induction l with
  | nil => rfl
  | cons y ys ih =>
    rw [insertOrd]
    by_cases h : le x y = true
    · rw [if_pos h]; rfl
    · rw [if_neg h]
      simp [ih]

theorem length_insertionSortBy {α : Type} (le : α → α → Bool) (l : List α) :
    (insertionSortBy le l).length = l.length := by
  induction l with
  | nil => rfl
  | cons x xs ih =>
    rw [insertionSortBy, length_insertOrd, ih]
    rfl

/-- `DataMigrator.getDataSinceWatermark`: rows strictly newer than the
watermark on either timestamp, ordered by the timestamps, limited to one
batch. -/
def getDataSinceWatermark (batchSize : Nat) (source : List JSRow) (w : Int) :
    List JSRow :=
  (insertionSortBy tsKeyLe (source.filter (rowNewerThan w))).take batchSize

/-- `DataMigrator.migrateTableDataIncremental`: compute the target
watermark, fetch the source rows past it (`newData`, spelt out below),
and insert their transforms when the fetch is non-empty.  Returns the
number of rows transferred and the target table after the insert. -/
def migrateTableDataIncremental (batchSize : Nat) (table : TableDefinition)
    (now : Int) (source target : List JSRow) : Nat × List JSRow :=
  if 0 < (getDataSinceWatermark batchSize source (getWatermark target)).length then
    ((getDataSinceWatermark batchSize source (getWatermark target)).length,
      target ++ transformData
        (getDataSinceWatermark batchSize source (getWatermark target)) table now)
  else ((getDataSinceWatermark batchSize source (getWatermark target)).length, target)

/-- `DataMigrator.setBatchSize`: clamps the configurable batch size into
`[1, 10000]`. -/
def setBatchSize (size : Nat) : Nat := max 1 (min size 10000)

/-- A table carrying both timestamp columns, for the incremental claims. -/
def eventsTable : TableDefinition :=
  { name := "events"
    columns :=
      [ { name := "id", type := "integer", nullable := false }
      , { name := "updated_at", type := "datetime", nullable := true }
      , { name := "created_at", type := "datetime", nullable := true } ]
    primaryKey := some "id" }

/-- Two source rows with distinct timestamps. -/
def eventsRows : List JSRow :=
  [[("id", .vnum 1), ("updated_at", .vdate 1), ("created_at", .vdate 1)],
   [("id", .vnum 2), ("updated_at", .vdate 2), ("created_at", .vdate 2)]]

set_option maxHeartbeats 2000000 in
/-- Counterexample to claim C6: with batch size 1 (a legal configured
value, as `setBatchSize 1 = 1` shows) and two source rows newer than the
epoch watermark, the first `migrateIncremental` run transfers only the
one batch-limited row, so the second run — with no intervening source
writes — transfers one more row, not zero. -/
theorem c6_counterexample_second_run_nonzero :
    setBatchSize 1 = 1 ∧
    (migrateTableDataIncremental 1 eventsTable 0 eventsRows []).1 = 1 ∧
    (migrateTableDataIncremental 1 eventsTable 5 eventsRows
        (migrateTableDataIncremental 1 eventsTable 0 eventsRows []).2).1 = 1 ∧
    ¬ ((migrateTableDataIncremental 1 eventsTable 5 eventsRows
        (migrateTableDataIncremental 1 eventsTable 0 eventsRows []).2).1 = 0) := by
  decide

/-- Both timestamp cells of a row are present as dates. -/
def rowHasTs (r : JSRow) : Bool :=
  (jsRowTs "updated_at" r).isSome && (jsRowTs "created_at" r).isSome

/-- The date-family logical types, through which `transformValue` passes a
`Date` value unchanged. -/
def isDateType (ty : String) : Bool :=
  (jsLower ty = "date") || (jsLower ty = "datetime") || (jsLower ty = "timestamp")

set_option maxHeartbeats 2000000 in
theorem transformValue_date (t : Int) (ty : String) (now : Int)
    (h : isDateType ty = true) : transformValue (.vdate t) ty now = .vdate t := by
  rw [isDateType] at h
  simp only [Bool.or_eq_true, decide_eq_true_eq] at h
  rw [transformValue]
  rcases h with (h | h) | h <;> rw [h] <;> rfl

/-- Lookup of a timestamp column across a mapped column list: with the
column present, date-typed, and carried by the source row as a date, the
transformed row carries the same timestamp. -/
theorem jsRowTs_map_transformCell (cols : List ColumnDefinition) (now : Int)
    (r : JSRow) (k : String) (hk : k ∈ cols.map ColumnDefinition.name)
    (hty : ∀ c ∈ cols, c.name = k → isDateType c.type = true)
    (t : Int) (ht : jsGet r k = .vdate t) :
    jsRowTs k (cols.map (transformCell now r)) = some t := by
  induction cols with
  | nil => simp at hk
  | cons c cs ih =>
    by_cases hkc : k = c.name
    · have hcell : transformCell now r c = (c.name, .vdate t) := by
        rw [transformCell]
        rw [← hkc, ht]
        rw [if_neg (by simp)]
        rw [transformValue_date t c.type now
          (hty c (List.mem_cons_self c cs) hkc.symm)]
      rw [jsRowTs, List.map_cons, hcell, List.lookup]
      rw [show (k == c.name) = true from beq_iff_eq.2 hkc]
    · rcases hpair : transformCell now r c with ⟨n, v⟩
      have hn : c.name = n := congrArg Prod.fst hpair
      rw [jsRowTs, List.map_cons, hpair, List.lookup]
      rw [show (k == n) = false from beq_eq_false_iff_ne.2 (by rw [← hn]; exact hkc)]
      have hk2 : k ∈ cs.map ColumnDefinition.name := by
        rcases List.mem_map.1 hk with ⟨c2, hc2, hc2n⟩
        rcases List.mem_cons.1 hc2 with rfl | hc2
        · exact absurd hc2n.symm hkc
        · exact List.mem_map.2 ⟨c2, hc2, hc2n⟩
      exact ih hk2 (fun c2 h2 => hty c2 (List.mem_cons_of_mem c h2))

/-- Timestamp preservation for a whole transformed row. -/
theorem jsRowTs_transformRow (table : TableDefinition) (now : Int) (r : JSRow)
    (k : String) (hk : k ∈ table.columns.map ColumnDefinition.name)
    (hty : ∀ c ∈ table.columns, c.name = k → isDateType c.type = true)
    (t : Int) (ht : jsGet r k = .vdate t) :
    jsRowTs k (transformRow table now r) = some t := by
  rw [transformRow]
  exact jsRowTs_map_transformCell table.columns now r k hk hty t ht

/-- The `MAX`-fold step of `sqlMax`. -/
def sqlMaxStep (acc v : Option Int) : Option Int :=
  match acc, v with
  | none, v => v
  | some a, none => some a
  | some a, some b => some (max a b)

theorem sqlMax_eq_foldl (vals : List (Option Int)) :
    sqlMax vals = vals.foldl sqlMaxStep none := by
  rw [sqlMax]
  rfl

theorem sqlMaxStep_fold_bound (l : List (Option Int)) :
    ∀ (acc : Option Int) (t : Int), (acc = some t ∨ some t ∈ l) →
      ∃ m, l.foldl sqlMaxStep acc = some m ∧ t ≤ m := by
  induction l with
  | nil =>
    intro acc t h
    rcases h with h | h
    · exact ⟨t, by rw [h]; rfl, le_refl t⟩
    · simp at h
  | cons v vs ih =>
    intro acc t h
    rcases h with h | h
    · subst h
      cases v with
      | none => exact ih (some t) t (Or.inl rfl)
      | some b =>
        rcases ih (some (max t b)) (max t b) (Or.inl rfl) with ⟨m, hm, hle⟩
        exact ⟨m, hm, le_trans (le_max_left t b) hle⟩
    · rcases List.mem_cons.1 h with rfl | h
      · cases acc with
        | none => exact ih (some t) t (Or.inl rfl)
        | some a =>
          rcases ih (some (max a t)) (max a t) (Or.inl rfl) with ⟨m, hm, hle⟩
          exact ⟨m, hm, le_trans (le_max_right a t) hle⟩
      · exact ih (sqlMaxStep acc v) t (Or.inr h)

theorem sqlMax_bound_of_mem (l : List (Option Int)) (t : Int) (h : some t ∈ l) :
    ∃ m, sqlMax l = some m ∧ t ≤ m := by
  rw [sqlMax_eq_foldl]
  exact sqlMaxStep_fold_bound l none t (Or.inr h)

theorem sqlMax_append_bound (l ex : List (Option Int)) (a : Int)
    (h : sqlMax l = some a) : ∃ b, sqlMax (l ++ ex) = some b ∧ a ≤ b := by
  rw [sqlMax_eq_foldl] at h ⊢
  rw [List.foldl_append, h]
  exact sqlMaxStep_fold_bound ex (some a) a (Or.inl rfl)

/-- Every present `updated_at` timestamp is bounded by the watermark. -/
theorem updated_le_getWatermark (target : List JSRow) (r : JSRow)
    (hr : r ∈ target) (t : Int) (h : jsRowTs "updated_at" r = some t) :
    t ≤ getWatermark target := by
  rcases sqlMax_bound_of_mem (target.map (jsRowTs "updated_at")) t
    (List.mem_map.2 ⟨r, hr, h⟩) with ⟨m, hm, hle⟩
  rw [getWatermark, hm]
  cases hc : sqlMax (target.map (jsRowTs "created_at")) with
  | none => exact hle
  | some c => exact le_trans hle (le_max_left m c)

/-- Every present `created_at` timestamp is bounded by the watermark. -/
theorem created_le_getWatermark (target : List JSRow) (r : JSRow)
    (hr : r ∈ target) (t : Int) (h : jsRowTs "created_at" r = some t) :
    t ≤ getWatermark target := by
  rcases sqlMax_bound_of_mem (target.map (jsRowTs "created_at")) t
    (List.mem_map.2 ⟨r, hr, h⟩) with ⟨m, hm, hle⟩
  rw [getWatermark, hm]
  cases hu : sqlMax (target.map (jsRowTs "updated_at")) with
  | none => exact hle
  | some u => exact le_trans hle (le_max_right u m)

/-- The watermark does not regress when rows are appended, provided the
existing rows carry timestamps and each appended row is strictly newer
than the current watermark on one of its (present) timestamps. -/
theorem getWatermark_le_append (target extra : List JSRow)
    (htgt : ∀ r ∈ target, rowHasTs r = true)
    (hex : ∀ r ∈ extra, rowHasTs r = true)
    (hexgt : ∀ r ∈ extra, rowNewerThan (getWatermark target) r = true) :
    getWatermark target ≤ getWatermark (target ++ extra) := by
  cases target with
  | nil =>
    cases extra with
    | nil => exact le_refl _
    | cons r rs =>
      have hr : r ∈ ([] : List JSRow) ++ r :: rs := by simp
      have hts := hex r (by simp)
      rw [rowHasTs, Bool.and_eq_true, Option.isSome_iff_exists,
        Option.isSome_iff_exists] at hts
      rcases hts with ⟨⟨tu, htu⟩, ⟨tc, htc⟩⟩
      have hgt := hexgt r (by simp)
      rw [rowNewerThan, htu, htc, Bool.or_eq_true, decide_eq_true_eq,
        decide_eq_true_eq] at hgt
      have h0 : getWatermark ([] : List JSRow) = 0 := by rfl
      rw [h0] at hgt ⊢
      rcases hgt with hgt | hgt
      · exact le_trans (le_of_lt hgt) (updated_le_getWatermark _ r hr tu htu)
      · exact le_trans (le_of_lt hgt) (created_le_getWatermark _ r hr tc htc)
  | cons r0 rest =>
    have hts := htgt r0 (by simp)
    rw [rowHasTs, Bool.and_eq_true, Option.isSome_iff_exists,
      Option.isSome_iff_exists] at hts
    rcases hts with ⟨⟨tu, htu⟩, ⟨tc, htc⟩⟩
    rcases sqlMax_bound_of_mem ((r0 :: rest).map (jsRowTs "updated_at")) tu
      (List.mem_map.2 ⟨r0, by simp, htu⟩) with ⟨mu, hmu, _⟩
    rcases sqlMax_bound_of_mem ((r0 :: rest).map (jsRowTs "created_at")) tc
      (List.mem_map.2 ⟨r0, by simp, htc⟩) with ⟨mc, hmc, _⟩
    rcases sqlMax_append_bound ((r0 :: rest).map (jsRowTs "updated_at"))
      (extra.map (jsRowTs "updated_at")) mu hmu with ⟨mu2, hmu2, hmuLe⟩
    rcases sqlMax_append_bound ((r0 :: rest).map (jsRowTs "created_at"))
      (extra.map (jsRowTs "created_at")) mc hmc with ⟨mc2, hmc2, hmcLe⟩
    rw [getWatermark, hmu, hmc]
    rw [getWatermark, List.map_append, List.map_append, hmu2, hmc2]
    exact max_le_max hmuLe hmcLe

theorem jsGet_of_jsRowTs (r : JSRow) (k : String) (t : Int)
    (h : jsRowTs k r = some t) : jsGet r k = .vdate t := by
  rw [jsRowTs] at h
  cases hl : r.lookup k with
  | none => rw [hl] at h; simp at h
  | some v =>
    rw [hl] at h
    cases v with
    | vdate ms =>
      have hms : ms = t := by simpa using h
      rw [jsGet, hl, hms]
      rfl
    | vnull => simp at h
    | vundefined => simp at h
    | vstr s => simp at h
    | vnum n => simp at h
    | vbool b => simp at h
    | vobj => simp at h

theorem rowHasTs_exists (r : JSRow) (h : rowHasTs r = true) :
    ∃ tu tc : Int, jsRowTs "updated_at" r = some tu ∧
      jsRowTs "created_at" r = some tc := by
  rw [rowHasTs, Bool.and_eq_true, Option.isSome_iff_exists,
    Option.isSome_iff_exists] at h
  rcases h with ⟨⟨tu, htu⟩, ⟨tc, htc⟩⟩
  exact ⟨tu, tc, htu, htc⟩

theorem rowNewerThan_iff (w : Int) (r : JSRow) (tu tc : Int)
    (hu : jsRowTs "updated_at" r = some tu)
    (hc : jsRowTs "created_at" r = some tc) :
    rowNewerThan w r = true ↔ (w < tu ∨ w < tc) := by
  rw [rowNewerThan, hu, hc]
  simp

theorem transformRow_preserves_ts (table : TableDefinition) (now : Int)
    (r : JSRow)
    (hup : "updated_at" ∈ table.columns.map ColumnDefinition.name)
    (hcr : "created_at" ∈ table.columns.map ColumnDefinition.name)
    (hty : ∀ c ∈ table.columns,
      c.name = "updated_at" ∨ c.name = "created_at" → isDateType c.type = true)
    (tu tc : Int) (hu : jsRowTs "updated_at" r = some tu)
    (hc : jsRowTs "created_at" r = some tc) :
    jsRowTs "updated_at" (transformRow table now r) = some tu ∧
    jsRowTs "created_at" (transformRow table now r) = some tc :=
  ⟨jsRowTs_transformRow table now r "updated_at" hup
      (fun c hm he => hty c hm (Or.inl he)) tu (jsGet_of_jsRowTs r _ tu hu),
   jsRowTs_transformRow table now r "created_at" hcr
      (fun c hm he => hty c hm (Or.inr he)) tc (jsGet_of_jsRowTs r _ tc hc)⟩

/-- Claim C6 (amended): when the rows newer than the first watermark fit
into one batch (the `LIMIT batchSize` of the incremental query does not
truncate), a second `migrateIncremental` run with no intervening source
writes transfers zero rows, and the watermark never regresses.  Requires
the table definition to carry both timestamp columns with a date-family
type, and all rows to carry both timestamps.  Without the fit condition
the second run can transfer further rows (see the counterexample). -/
theorem c6_amended_idempotent_within_batch (batchSize : Nat)
    (table : TableDefinition) (now1 now2 : Int) (source target : List JSRow)
    (hsrc : ∀ r ∈ source, rowHasTs r = true)
    (htgt : ∀ r ∈ target, rowHasTs r = true)
    (hup : "updated_at" ∈ table.columns.map ColumnDefinition.name)
    (hcr : "created_at" ∈ table.columns.map ColumnDefinition.name)
    (hty : ∀ c ∈ table.columns,
      c.name = "updated_at" ∨ c.name = "created_at" → isDateType c.type = true)
    (hfit : (source.filter (rowNewerThan (getWatermark target))).length ≤ batchSize) :
    getWatermark target ≤
      getWatermark (migrateTableDataIncremental batchSize table now1 source target).2 ∧
    (migrateTableDataIncremental batchSize table now2 source
        (migrateTableDataIncremental batchSize table now1 source target).2).1 = 0 := by
  have hndEq : getDataSinceWatermark batchSize source (getWatermark target)
      = insertionSortBy tsKeyLe (source.filter (rowNewerThan (getWatermark target))) := by
    rw [getDataSinceWatermark]
    exact List.take_of_length_le (by rw [length_insertionSortBy]; exact hfit)
  have hndMem : ∀ r : JSRow,
      r ∈ getDataSinceWatermark batchSize source (getWatermark target) ↔
        r ∈ source.filter (rowNewerThan (getWatermark target)) := by
    intro r
    rw [hndEq, mem_insertionSortBy]
  by_cases hlen : 0 < (getDataSinceWatermark batchSize source (getWatermark target)).length
  case neg =>
    have h2 : (migrateTableDataIncremental batchSize table now1 source target).2 = target := by
      rw [migrateTableDataIncremental, if_neg hlen]
    have hzero : (getDataSinceWatermark batchSize source (getWatermark target)).length = 0 := by
      omega
    rw [h2]
    refine ⟨le_refl _, ?_⟩
    rw [migrateTableDataIncremental, if_neg hlen]
    exact hzero
  case pos =>
    have h2 : (migrateTableDataIncremental batchSize table now1 source target).2
        = target ++ transformData
            (getDataSinceWatermark batchSize source (getWatermark target)) table now1 := by
      rw [migrateTableDataIncremental, if_pos hlen]
    have hexfacts : ∀ r2 ∈ transformData
        (getDataSinceWatermark batchSize source (getWatermark target)) table now1,
        ∃ r ∈ source, rowNewerThan (getWatermark target) r = true ∧
          ∃ tu tc : Int, jsRowTs "updated_at" r = some tu ∧
            jsRowTs "created_at" r = some tc ∧
            jsRowTs "updated_at" r2 = some tu ∧
            jsRowTs "created_at" r2 = some tc := by
      intro r2 hr2
      rw [transformData] at hr2
      rcases List.mem_map.1 hr2 with ⟨r, hrnd, hr2eq⟩
      rcases List.mem_filter.1 ((hndMem r).1 hrnd) with ⟨hrsrc, hrnew⟩
      rcases rowHasTs_exists r (hsrc r hrsrc) with ⟨tu, tc, htu, htc⟩
      rcases transformRow_preserves_ts table now1 r hup hcr hty tu tc htu htc
        with ⟨hp1, hp2⟩
      exact ⟨r, hrsrc, hrnew, tu, tc, htu, htc,
        by rw [← hr2eq]; exact hp1, by rw [← hr2eq]; exact hp2⟩
    have hexHas : ∀ r2 ∈ transformData
        (getDataSinceWatermark batchSize source (getWatermark target)) table now1,
        rowHasTs r2 = true := by
      intro r2 hr2
      rcases hexfacts r2 hr2 with ⟨r, _, _, tu, tc, _, _, hp1, hp2⟩
      rw [rowHasTs, hp1, hp2]
      rfl
    have hexGt : ∀ r2 ∈ transformData
        (getDataSinceWatermark batchSize source (getWatermark target)) table now1,
        rowNewerThan (getWatermark target) r2 = true := by
      intro r2 hr2
      rcases hexfacts r2 hr2 with ⟨r, _, hrnew, tu, tc, htu, htc, hp1, hp2⟩
      rw [rowNewerThan_iff _ r2 tu tc hp1 hp2]
      exact (rowNewerThan_iff _ r tu tc htu htc).1 hrnew
    have hw : getWatermark target ≤ getWatermark (target ++ transformData
        (getDataSinceWatermark batchSize source (getWatermark target)) table now1) :=
      getWatermark_le_append target _ htgt hexHas hexGt
    rw [h2]
    refine ⟨hw, ?_⟩
    have hfilter2 : source.filter (rowNewerThan (getWatermark (target ++ transformData
        (getDataSinceWatermark batchSize source (getWatermark target)) table now1))) = [] := by
      rw [List.filter_eq_nil_iff]
      intro r hrsrc
      rcases rowHasTs_exists r (hsrc r hrsrc) with ⟨tu, tc, htu, htc⟩
      rw [rowNewerThan_iff _ r tu tc htu htc]
      by_cases hrnew : rowNewerThan (getWatermark target) r = true
      · have hrnd : r ∈ getDataSinceWatermark batchSize source (getWatermark target) :=
          (hndMem r).2 (List.mem_filter.2 ⟨hrsrc, hrnew⟩)
        have hr2tgt : transformRow table now1 r ∈ target ++ transformData
            (getDataSinceWatermark batchSize source (getWatermark target)) table now1 :=
          List.mem_append.2 (Or.inr (by
            rw [transformData]
            exact List.mem_map.2 ⟨r, hrnd, rfl⟩))
        rcases transformRow_preserves_ts table now1 r hup hcr hty tu tc htu htc
          with ⟨hp1, hp2⟩
        have hbu := updated_le_getWatermark _ _ hr2tgt tu hp1
        have hbc := created_le_getWatermark _ _ hr2tgt tc hp2
        rintro (h | h) <;> omega
      · rw [rowNewerThan_iff _ r tu tc htu htc] at hrnew
        push_neg at hrnew
        rintro (h | h) <;> omega
    have hnd2 : getDataSinceWatermark batchSize source (getWatermark (target ++
        transformData (getDataSinceWatermark batchSize source (getWatermark target))
          table now1)) = [] := by
      rw [getDataSinceWatermark, hfilter2]
      simp [insertionSortBy]
    rw [migrateTableDataIncremental, hnd2]
    simp

set_option maxHeartbeats 2000000 in
/-- Witness for the hypotheses of C6's amended theorem: two rows, batch
size 10 (no truncation), empty initial target. -/
theorem c6_amended_idempotent_within_batch_witness :
    ((∀ r ∈ eventsRows, rowHasTs r = true) ∧
      (∀ r ∈ ([] : List JSRow), rowHasTs r = true) ∧
      ("updated_at" ∈ eventsTable.columns.map ColumnDefinition.name) ∧
      ("created_at" ∈ eventsTable.columns.map ColumnDefinition.name) ∧
      (∀ c ∈ eventsTable.columns,
        c.name = "updated_at" ∨ c.name = "created_at" → isDateType c.type = true) ∧
      (eventsRows.filter (rowNewerThan (getWatermark []))).length ≤ 10) ∧
    (getWatermark [] ≤
        getWatermark (migrateTableDataIncremental 10 eventsTable 0 eventsRows []).2 ∧
      (migrateTableDataIncremental 10 eventsTable 5 eventsRows
          (migrateTableDataIncremental 10 eventsTable 0 eventsRows []).2).1 = 0) :=
  ⟨⟨by decide, by decide, by decide, by decide, by decide, by decide⟩,
   c6_amended_idempotent_within_batch 10 eventsTable 0 5 eventsRows []
     (by decide) (by decide) (by decide) (by decide) (by decide) (by decide)⟩

/-- A row of the tables handled by `ZeroDowntimeManager`: the two
change-capture timestamps (`none` is SQL `NULL`) and an opaque payload
standing for the remaining cell data. -/
structure ZRow where
  updatedAt : Option Int
  createdAt : Option Int
  payload : Nat
deriving DecidableEq, Repr

/-- A database reachable through one adapter: table name to rows. -/
abbrev TableStore := List (String × List ZRow)

def storeLookup (db : TableStore) (t : String) : Option (List ZRow) :=
  db.lookup t

/-- `getCount` (`SELECT COUNT(*)`): fails when the table does not exist. -/
def storeCount (db : TableStore) (t : String) : Except String Nat :=
  match storeLookup db t with
  | some rows => .ok rows.length
  | none => .error ("no such table: " ++ t)

/-- `ALTER TABLE a RENAME TO b`: requires `a` to exist and `b` to be
free. -/
def renameTable (db : TableStore) (a b : String) : Except String TableStore :=
  match storeLookup db a with
  | none => .error ("no such table: " ++ a)
  | some _ =>
    if (storeLookup db b).isSome then .error ("table exists: " ++ b)
    else .ok (db.map (fun p => if p.1 = a then (b, p.2) else p))

/-- `insertData` on a table of the store: fails when the table does not
exist. -/
def insertRowsZ (db : TableStore) (t : String) (rows : List ZRow) :
    Except String TableStore :=
  match storeLookup db t with
  | some _ => .ok (db.map (fun p => if p.1 = t then (t, p.2 ++ rows) else p))
  | none => .error ("no such table: " ++ t)

/-- The source side seen by the cutover: its tables plus the
`maintenance_mode` sentinel (the effect of the maintenance-mode
statements, whose own failures the code swallows). -/
structure SourceState where
  db : TableStore
  maintenanceOn : Bool
deriving DecidableEq, Repr

def enableMaintenanceMode (src : SourceState) : SourceState :=
  { src with maintenanceOn := true }

def disableMaintenanceMode (src : SourceState) : SourceState :=
  { src with maintenanceOn := false }

/-- The message of the error thrown by `validateShadowData`. -/
def validationFailedMsg (tableName : String) (sourceCount shadowCount : Nat) :
    String :=
  "Data validation failed for " ++ tableName ++ ": source=" ++
    toString sourceCount ++ ", shadow=" ++ toString shadowCount

/-- `ZeroDowntimeManager.validateShadowData`: row-count parity between
every source table and its shadow, failing at the first mismatch with
both counts in the error. -/
def validateShadowData (shadowTables : List (String × String))
    (src tgt : TableStore) : Except String Unit :=
  match shadowTables with
  | [] => .ok ()
  | (sourceTable, shadowTable) :: rest =>
    match storeCount src sourceTable, storeCount tgt shadowTable with
    | .ok sourceCount, .ok shadowCount =>
      if sourceCount ≠ shadowCount then
        .error (validationFailedMsg sourceTable sourceCount shadowCount)
      else validateShadowData rest src tgt
    | .error e, _ => .error e
    | _, .error e => .error e

/-- The `updated_at > $1 OR created_at > $1` predicate of
`getChangesSince`; `NULL` compares as false. -/
def zrowChangedSince (since : Int) (r : ZRow) : Bool :=
  (match r.updatedAt with
   | some t => since < t
   | none => false) ||
  (match r.createdAt with
   | some t => since < t
   | none => false)

/-- `ORDER BY updated_at, created_at` over `ZRow`s (`NULL`s last, as for
`tsKeyLe`). -/
def zrowKeyLe (a b : ZRow) : Bool :=
  match a.updatedAt, b.updatedAt with
  | some ua, some ub =>
    if ua = ub then
      match a.createdAt, b.createdAt with
      | some ca, some cb => ca ≤ cb
      | some _, none => true
      | none, some _ => false
      | none, none => true
    else ua < ub
  | some _, none => true
  | none, some _ => false
  | none, none => true

/-- `ZeroDowntimeManager.getChangesSince`.  When the table is missing both
the filtered query and the unfiltered `LIMIT 1000` fallback fail, so the
error propagates. -/
def getChangesSince (db : TableStore) (tableName : String) (since : Int) :
    Except String (List ZRow) :=
  match storeLookup db tableName with
  | some rows => .ok (insertionSortBy zrowKeyLe (rows.filter (zrowChangedSince since)))
  | none => .error ("no such table: " ++ tableName)

/-- `ZeroDowntimeManager.finalSync`: one final incremental copy per
mapping, from each stream's last-synced time (`new Date(0)` when no
stream exists).  Deactivating the replication streams has no effect on
the stores. -/
def finalSync (streams : List (String × Int))
    (shadowTables : List (String × String)) (src tgt : TableStore) :
    Except String TableStore :=
  match shadowTables with
  | [] => .ok tgt
  | (sourceTable, shadowTable) :: rest =>
    match getChangesSince src sourceTable ((streams.lookup sourceTable).getD 0) with
    | .error e => .error e
    | .ok finalChanges =>
      if 0 < finalChanges.length then
        match insertRowsZ tgt shadowTable finalChanges with
        | .error e => .error e
        | .ok tgt1 => finalSync streams rest src tgt1
      else finalSync streams rest src tgt

/-- The timestamped backup name `${originalTable}_backup_${Date.now()}`. -/
def backupName (originalTable : String) (now : Int) : String :=
  originalTable ++ "_backup_" ++ toString now

/-- `ZeroDowntimeManager.renameTables`: within one transaction, rename
each live table to its timestamped backup name and its shadow into the
live name.  `Except.error` is the transaction rolled back (the caller
keeps the pre-transaction store) with the error rethrown.  `now` is the
`Date.now()` reading, taken constant within the call. -/
def renameTables (now : Int) (shadowTables : List (String × String))
    (db : TableStore) : Except String TableStore :=
  match shadowTables with
  | [] => .ok db
  | (originalTable, shadowTable) :: rest =>
    match renameTable db originalTable (backupName originalTable now) with
    | .error e => .error e
    | .ok db1 =>
      match renameTable db1 shadowTable originalTable with
      | .error e => .error e
      | .ok db2 => renameTables now rest db2

/-- The rename loop of `ZeroDowntimeManager.rollbackCutover`: live table
back to the shadow name, then the backup — under the name recomputed from
a fresh `Date.now()` reading (`now`) — back to the live name. -/
def rollbackCutoverRenames (now : Int) (shadowTables : List (String × String))
    (db : TableStore) : Except String TableStore :=
  match shadowTables with
  | [] => .ok db
  | (originalTable, shadowTable) :: rest =>
    match renameTable db originalTable shadowTable with
    | .error e => .error e
    | .ok db1 =>
      match renameTable db1 (backupName originalTable now) originalTable with
      | .error e => .error e
      | .ok db2 => rollbackCutoverRenames now rest db2

/-- `ZeroDowntimeManager.rollbackCutover`: run the reverse renames in a
transaction; on success commit and exit maintenance mode, on failure roll
the transaction back and only log (no rethrow). -/
def rollbackCutover (now : Int) (shadowTables : List (String × String))
    (src : SourceState) (db : TableStore) : SourceState × TableStore :=
  match rollbackCutoverRenames now shadowTables db with
  | .ok db1 => (disableMaintenanceMode src, db1)
  | .error _ => (src, db)

/-- `ZeroDowntimeManager.cutover`.  `nowRename`/`nowRollback` are the
`Date.now()` readings taken inside `renameTables` and `rollbackCutover`
respectively; `faultAfterRename` injects a failure between the rename
commit and the maintenance-mode exit (e.g. a throwing
`connectionsUpdated` listener).  Returns the error propagated to the
caller (`none` on success) with the final source and target states. -/
def cutover (nowRename nowRollback : Int) (faultAfterRename : Bool)
    (shadowTables : List (String × String)) (streams : List (String × Int))
    (src : SourceState) (tgt : TableStore) :
    Option String × SourceState × TableStore :=
  match validateShadowData shadowTables src.db tgt with
  | .error e =>
    ((some e, rollbackCutover nowRollback shadowTables src tgt) :
      Option String × SourceState × TableStore)
  | .ok _ =>
    match finalSync streams shadowTables (enableMaintenanceMode src).db tgt with
    | .error e =>
      (some e, rollbackCutover nowRollback shadowTables (enableMaintenanceMode src) tgt)
    | .ok tgt1 =>
      match renameTables nowRename shadowTables tgt1 with
      | .error e =>
        (some e, rollbackCutover nowRollback shadowTables (enableMaintenanceMode src) tgt1)
      | .ok tgt2 =>
        if faultAfterRename then
          (some "injected failure",
            rollbackCutover nowRollback shadowTables (enableMaintenanceMode src) tgt2)
        else (none, disableMaintenanceMode (enableMaintenanceMode src), tgt2)

/-- The live table's row before cutover. -/
def liveRowW : ZRow := { updatedAt := none, createdAt := none, payload := 10 }

/-- The shadow table's row before cutover. -/
def shadowRowW : ZRow := { updatedAt := none, createdAt := none, payload := 20 }

/-- Source-side state for the cutover scenarios. -/
def cutoverSrcW : SourceState :=
  { db := [("users", [{ updatedAt := none, createdAt := none, payload := 1 }])]
    maintenanceOn := false }

/-- Target store before cutover: the live table and its shadow. -/
def cutoverTgtW : TableStore :=
  [("users", [liveRowW]), ("users_shadow", [shadowRowW])]

set_option maxHeartbeats 1000000 in
/-- Claim C1, evaluated at the failing input: the rename transaction
commits at `Date.now() = 100`, a failure is injected after the commit,
and `rollbackCutover` runs at `Date.now() = 101`.  Because the rollback
recomputes the backup name with the fresh timestamp, its second rename
targets the non-existent `users_backup_101`; the rollback transaction
aborts, and instead of the claimed full restoration the tables stay
half-swapped — the live name holds the shadow rows, the original rows
are stranded under `users_backup_100`, no table is back under the shadow
name, and the source is left in maintenance mode. -/
theorem c1_rollback_cutover_leaves_half_swapped :
    cutover 100 101 true [("users", "users_shadow")] [("users", 0)]
        cutoverSrcW cutoverTgtW
      = (some "injected failure",
         { db := cutoverSrcW.db, maintenanceOn := true },
         [("users_backup_100", [liveRowW]), ("users", [shadowRowW])]) ∧
    (cutover 100 101 true [("users", "users_shadow")] [("users", 0)]
        cutoverSrcW cutoverTgtW).2.2 ≠ cutoverTgtW ∧
    storeLookup (cutover 100 101 true [("users", "users_shadow")] [("users", 0)]
        cutoverSrcW cutoverTgtW).2.2 "users" = some [shadowRowW] ∧
    storeLookup (cutover 100 101 true [("users", "users_shadow")] [("users", 0)]
        cutoverSrcW cutoverTgtW).2.2 "users_shadow" = none ∧
    storeLookup cutoverTgtW "users" = some [liveRowW] := by
  decide

/-- If the head mapping's shadow table exists on the target,
`rollbackCutover` cannot commit (its first rename finds the shadow name
occupied, or the live name absent), so it leaves both states unchanged. -/
theorem rollbackCutover_unchanged_of_shadow_present (now : Int)
    (sourceTable shadowTable : String) (rest : List (String × String))
    (src : SourceState) (tgt : TableStore)
    (hsh : (storeLookup tgt shadowTable).isSome) :
    rollbackCutover now ((sourceTable, shadowTable) :: rest) src tgt = (src, tgt) := by
  rw [rollbackCutover, rollbackCutoverRenames]
  cases hl : storeLookup tgt sourceTable with
  | none => rw [renameTable, hl]
  | some rows =>
    rw [renameTable, hl]
    rw [if_pos hsh]

/-- `validateShadowData` fails at the first mismatching mapping, carrying
both counts, whenever all mapped tables are present and some mapping
mismatches. -/
theorem validateShadowData_error (shadowTables : List (String × String))
    (src tgt : TableStore)
    (hpresent : ∀ p ∈ shadowTables,
      (storeLookup src p.1).isSome ∧ (storeLookup tgt p.2).isSome)
    (hmismatch : ∃ p ∈ shadowTables, ∃ sc shc : Nat,
      storeCount src p.1 = .ok sc ∧ storeCount tgt p.2 = .ok shc ∧ sc ≠ shc) :
    ∃ s sh : String, ∃ sc shc : Nat, (s, sh) ∈ shadowTables ∧
      storeCount src s = .ok sc ∧ storeCount tgt sh = .ok shc ∧ sc ≠ shc ∧
      validateShadowData shadowTables src tgt
        = .error (validationFailedMsg s sc shc) := by
  induction shadowTables with
  | nil => simp at hmismatch
  | cons p rest ih =>
    rcases p with ⟨s0, sh0⟩
    rcases hpresent (s0, sh0) (by simp) with ⟨hs0, hsh0⟩
    rw [Option.isSome_iff_exists] at hs0 hsh0
    rcases hs0 with ⟨rows0, hrows0⟩
    rcases hsh0 with ⟨srows0, hsrows0⟩
    have hc0 : storeCount src s0 = .ok rows0.length := by
      rw [storeCount, hrows0]
    have hc0t : storeCount tgt sh0 = .ok srows0.length := by
      rw [storeCount, hsrows0]
    by_cases hne : rows0.length ≠ srows0.length
    · refine ⟨s0, sh0, rows0.length, srows0.length, by simp, hc0, hc0t, hne, ?_⟩
      rw [validateShadowData, hc0, hc0t]
      simp only []
      rw [if_pos hne]
    · have heq : rows0.length = srows0.length := by omega
      have hrest : ∃ p ∈ rest, ∃ sc shc : Nat,
          storeCount src p.1 = .ok sc ∧ storeCount tgt p.2 = .ok shc ∧ sc ≠ shc := by
        rcases hmismatch with ⟨q, hq, sc, shc, hqs, hqt, hqne⟩
        rcases List.mem_cons.1 hq with rfl | hq
        · exfalso
          rw [hc0] at hqs
          rw [hc0t] at hqt
          have h1 : sc = rows0.length := by
            have := Except.ok.inj hqs
            omega
          have h2 : shc = srows0.length := by
            have := Except.ok.inj hqt
            omega
          omega
        · exact ⟨q, hq, sc, shc, hqs, hqt, hqne⟩
      rcases ih (fun q hq => hpresent q (List.mem_cons_of_mem _ hq)) hrest
        with ⟨s, sh, sc, shc, hmem, hcs, hct, hne2, hval⟩
      refine ⟨s, sh, sc, shc, List.mem_cons_of_mem _ hmem, hcs, hct, hne2, ?_⟩
      rw [validateShadowData, hc0, hc0t]
      simp only []
      rw [if_neg (by omega)]
      exact hval

/-- Claim C3: when some source table's row count differs from its shadow's
(and the mapped tables exist), cutover aborts with the validation error
carrying both counts, and the stores are left exactly as they were — no
table rename is performed (validation precedes the rename step, and the
compensating rollback's own transaction aborts without committing). -/
theorem c3_mismatch_aborts_cutover_without_rename
    (shadowTables : List (String × String)) (streams : List (String × Int))
    (src : SourceState) (tgt : TableStore)
    (nowRename nowRollback : Int) (fault : Bool)
    (hpresent : ∀ p ∈ shadowTables,
      (storeLookup src.db p.1).isSome ∧ (storeLookup tgt p.2).isSome)
    (hmismatch : ∃ p ∈ shadowTables, ∃ sc shc : Nat,
      storeCount src.db p.1 = .ok sc ∧ storeCount tgt p.2 = .ok shc ∧ sc ≠ shc) :
    ∃ s sh : String, ∃ sc shc : Nat, (s, sh) ∈ shadowTables ∧
      storeCount src.db s = .ok sc ∧ storeCount tgt sh = .ok shc ∧ sc ≠ shc ∧
      cutover nowRename nowRollback fault shadowTables streams src tgt
        = (some (validationFailedMsg s sc shc), src, tgt) := by
  rcases validateShadowData_error shadowTables src.db tgt hpresent hmismatch
    with ⟨s, sh, sc, shc, hmem, hcs, hct, hne, hval⟩
  refine ⟨s, sh, sc, shc, hmem, hcs, hct, hne, ?_⟩
  rw [cutover, hval]
  cases shadowTables with
  | nil => simp at hmem
  | cons p rest =>
    rcases p with ⟨s0, sh0⟩
    rw [rollbackCutover_unchanged_of_shadow_present nowRollback s0 sh0 rest src tgt
      (hpresent (s0, sh0) (by simp)).2]

/-- Source store of end-to-end scenario D: 100 rows in `users`. -/
def mismatchSrcW : SourceState :=
  { db := [("users", List.replicate 100 { updatedAt := none, createdAt := none, payload := 0 })]
    maintenanceOn := false }

/-- Target store of scenario D: the shadow holds only 99 rows. -/
def mismatchTgtW : TableStore :=
  [("users", []),
   ("users_shadow", List.replicate 99 { updatedAt := none, createdAt := none, payload := 0 })]

set_option maxHeartbeats 1000000 in
/-- Witness for the hypotheses of C3's theorem at scenario D (source
count 100, shadow count 99). -/
theorem c3_mismatch_aborts_cutover_without_rename_witness :
    ((∀ p ∈ [("users", "users_shadow")],
        (storeLookup mismatchSrcW.db p.1).isSome ∧
          (storeLookup mismatchTgtW p.2).isSome) ∧
      (∃ p ∈ [("users", "users_shadow")], ∃ sc shc : Nat,
        storeCount mismatchSrcW.db p.1 = .ok sc ∧
          storeCount mismatchTgtW p.2 = .ok shc ∧ sc ≠ shc)) ∧
    (∃ s sh : String, ∃ sc shc : Nat, (s, sh) ∈ [("users", "users_shadow")] ∧
      storeCount mismatchSrcW.db s = .ok sc ∧
      storeCount mismatchTgtW sh = .ok shc ∧ sc ≠ shc ∧
      cutover 100 101 false [("users", "users_shadow")] [] mismatchSrcW mismatchTgtW
        = (some (validationFailedMsg s sc shc), mismatchSrcW, mismatchTgtW)) :=
  ⟨⟨by decide,
    ⟨("users", "users_shadow"), by decide, 100, 99, by rfl, by rfl, by decide⟩⟩,
   c3_mismatch_aborts_cutover_without_rename [("users", "users_shadow")] []
     mismatchSrcW mismatchTgtW 100 101 false (by decide)
     ⟨("users", "users_shadow"), by decide, 100, 99, by rfl, by rfl, by decide⟩⟩

end CodeMorph
